import Mathlib

/-!
Shallow embedding of `src/recursive_descent_parser_tutorial.c`.

The C program parses and evaluates an arithmetic expression in a single
left-to-right pass.  The shared mutable `struct ParseData` (a cursor
`currentPosition` and an `errorCode`) is modelled as an explicit state
value threaded functionally; the cursor pointer becomes a `Nat` offset
into the input, which is a `List Char` (C's terminating NUL is modelled
by the offset running off the end of the list, so `*p` checks against a
character become checks of `curChar s pos` against `some c`).

`ValueType` is C's `long long`; signed overflow is undefined behaviour in
C, so the embedding uses unbounded `Int` (all claims below stay far from
the 64-bit range).  The C `while` loops are modelled as separate
recursive helper functions (`addSubLoop`, `mulDivLoop`, `mulIter`).  The
mutual recursion of the precedence tiers is made total with an explicit
`fuel` argument, decremented at each tier entry; exhausted fuel returns
the state unchanged (the C program has no such case; every theorem below
either quantifies over `fuel` or supplies an ample concrete amount).

One ghost field, `firstError`, is added to the state: it records the
error kind and cursor offset at the first moment an error code is
stored, and is never written again.  It does not influence `pos` or
`errorCode` (it is written only inside `setError`, alongside the C
assignment `data->errorCode = ...`), and exists solely so that the
specification's "position at the moment of failure" is expressible.
-/

set_option maxHeartbeats 1600000
set_option maxRecDepth 8000

/-- C `typedef long long ValueType` (line 56); overflow is UB, so `Int`. -/
abbrev ValueType := Int

/-- C `enum ParseErrorCode` (line 57).  `ParseError_Syntax` is rendered
`synErr` (its C name is not a legal Lean identifier). -/
inductive ParseErrorCode where
  | noError
  | synErr
  | div0
  | noClosingParenthesis
deriving DecidableEq, Repr

/-- C `struct ParseData` (lines 59-63) plus the ghost `firstError`. -/
structure ParseData where
  pos : Nat
  errorCode : ParseErrorCode
  firstError : Option (ParseErrorCode × Nat)
deriving DecidableEq, Repr

/-- Models every C assignment `data->errorCode = e`; additionally records
the (kind, position) pair the first time an error is stored (ghost). -/
def setError (d : ParseData) (e : ParseErrorCode) : ParseData :=
  { d with errorCode := e,
           firstError := match d.firstError with
                         | some x => some x
                         | none => some (e, d.pos) }

/-- C `isspace` on the default locale over ASCII input (space, \t, \n,
vertical tab, form feed, \r). -/
def isCSpace (c : Char) : Bool :=
  c = ' ' || c = '\t' || c = '\n' || c = '\x0b' || c = '\x0c' || c = '\r'

/-- Number of leading whitespace characters of a list. -/
def skipWsCount : List Char → Nat
  | c :: rest => if isCSpace c then skipWsCount rest + 1 else 0
  | [] => 0

/-- C `skipWhitespace` (lines 65-69): advance the offset past whitespace. -/
def skipWhitespace (s : List Char) (pos : Nat) : Nat :=
  pos + skipWsCount (s.drop pos)

/-- Dereferencing the cursor, C's `*p` on the NUL-terminated argument
string: the character at `pos`, or `none` at (or past) the end of the
input, where C reads the terminating NUL. -/
def curChar : List Char → Nat → Option Char
  | [], _ => none
  | c :: _, 0 => some c
  | _ :: rest, n + 1 => curChar rest n

/-- Digit run consumed by `strtoll` after the optional sign: returns the
accumulated value and the number of characters consumed. -/
def digitsVal (acc : Int) : List Char → Int × Nat
  | c :: rest =>
    if c.isDigit then
      let r := digitsVal (acc * 10 + ((c.toNat : Int) - ('0'.toNat : Int))) rest
      (r.1, r.2 + 1)
    else (acc, 0)
  | [] => (acc, 0)

/-- C `strtoll(p, &endPtr, 10)` as used in `parseValue` (line 251):
skips whitespace, accepts one optional sign, then a digit run; when no
digit follows, no conversion is performed and the end offset equals the
starting offset (the returned value is then 0).  Returns
(value, end offset).  (The `long long` range clamping on overflow is not
modelled; no claim involves values near the 64-bit range.)
`strtollSign` is the optional-sign step: whether a `-` was seen, and the
offset after the optional sign. -/
def strtollSign (s : List Char) (p1 : Nat) : Bool × Nat :=
  match curChar s p1 with
  | some '-' => (true, p1 + 1)
  | some '+' => (false, p1 + 1)
  | _ => (false, p1)

def strtoll (s : List Char) (pos : Nat) : Int × Nat :=
  let sgn := strtollSign s (skipWhitespace s pos)
  match curChar s sgn.2 with
  | some c =>
    if c.isDigit then
      let r := digitsVal 0 (s.drop sgn.2)
      ((if sgn.1 then -r.1 else r.1), sgn.2 + r.2)
    else (0, pos)
  | none => (0, pos)

/-- C `parseValue` (lines 243-258): skip whitespace, scan an integer
with `strtoll`; if nothing was consumed set `ParseError_Syntax`, then
jump the cursor to `endPtr`. -/
def parseValue (s : List Char) (d : ParseData) : ValueType × ParseData :=
  let d1 : ParseData := { d with pos := skipWhitespace s d.pos }
  let r := strtoll s d1.pos
  let d2 : ParseData := if r.2 = d1.pos then setError d1 .synErr else d1
  (r.1, { d2 with pos := r.2 })

/-- The exponent evaluation policy, C lines 176-182: given the already
parsed base `result` and exponent `result2`, either yield the value or
set `ParseError_Div0` (zero base, negative exponent). -/
def expApply (result result2 : ValueType) (d : ParseData) : ValueType × ParseData :=
  if result2 = 0 then (1, d)
  else if result2 < 0 ∧ result = 0 then (0, setError d .div0)
  else if result2 < 0 then (0, d)
  else (mulIter result (result2.toNat - 1) result, d)
where
  /-- C `while(--result2) result *= factor;` with `result2 - 1`
  iterations remaining. -/
  mulIter (factor : Int) : Nat → Int → Int
    | 0, result => result
    | n + 1, result => mulIter factor n (result * factor)

/-- The multiply/divide step, C lines 143-145: `*` multiplies; `/` with a
zero right operand is `none` (the caller sets `ParseError_Div0` and
aborts the loop), otherwise C truncating division. -/
def mulDivApply (c : Char) (result result2 : ValueType) : Option ValueType :=
  if c = '*' then some (result * result2)
  else if result2 = 0 then none
  else some (result.tdiv result2)

mutual

/-- C `parseAddSubtract` (lines 87-115): parse the left operand at the
next tier, return on error, then loop over `+`/`-` (the loop is
`addSubLoop`). -/
def parseAddSubtract (fuel : Nat) (s : List Char) (d : ParseData) : ValueType × ParseData :=
  if _h : fuel = 0 then (0, d) else
  match parseMulDiv (fuel - 1) s d with
  | (result, d1) =>
    if d1.errorCode ≠ .noError then (result, d1)
    else addSubLoop (fuel - 1) s result d1
termination_by fuel
decreasing_by all_goals omega

/-- The `while(1)` loop of `parseAddSubtract` (lines 95-114), carrying
the accumulated `result`. -/
def addSubLoop (fuel : Nat) (s : List Char) (result : ValueType) (d : ParseData) :
    ValueType × ParseData :=
  if _h : fuel = 0 then (result, d) else
  let d1 : ParseData := { d with pos := skipWhitespace s d.pos }
  match curChar s d1.pos with
  | some c =>
    if c = '+' ∨ c = '-' then
      match parseMulDiv (fuel - 1) s { d1 with pos := d1.pos + 1 } with
      | (result2, d2) =>
        if d2.errorCode ≠ .noError then (result, d2)
        else addSubLoop (fuel - 1) s (if c = '+' then result + result2 else result - result2) d2
    else (result, d1)
  | none => (result, d1)
termination_by fuel
decreasing_by all_goals omega

/-- C `parseMulDiv` (lines 120-147): parse the left operand at the
exponent tier, return 0 on error, then loop over `*`/`/`. -/
def parseMulDiv (fuel : Nat) (s : List Char) (d : ParseData) : ValueType × ParseData :=
  if _h : fuel = 0 then (0, d) else
  match parseExponent (fuel - 1) s d with
  | (result, d1) =>
    if d1.errorCode ≠ .noError then (0, d1)
    else mulDivLoop (fuel - 1) s result d1
termination_by fuel
decreasing_by all_goals omega

/-- The `while(1)` loop of `parseMulDiv` (lines 131-146). -/
def mulDivLoop (fuel : Nat) (s : List Char) (result : ValueType) (d : ParseData) :
    ValueType × ParseData :=
  if _h : fuel = 0 then (result, d) else
  let d1 : ParseData := { d with pos := skipWhitespace s d.pos }
  match curChar s d1.pos with
  | some c =>
    if c = '*' ∨ c = '/' then
      match parseExponent (fuel - 1) s { d1 with pos := d1.pos + 1 } with
      | (result2, d2) =>
        if d2.errorCode ≠ .noError then (0, d2)
        else
          match mulDivApply c result result2 with
          | none => (0, setError d2 .div0)
          | some result3 => mulDivLoop (fuel - 1) s result3 d2
    else (result, d1)
  | none => (result, d1)
termination_by fuel
decreasing_by all_goals omega

/-- C `parseExponent` (lines 152-183): parse the left operand at the
unary-minus tier; on `^`, recurse into the same tier (right-to-left
associativity) and evaluate with `expApply`. -/
def parseExponent (fuel : Nat) (s : List Char) (d : ParseData) : ValueType × ParseData :=
  if _h : fuel = 0 then (0, d) else
  match parseUnaryMinus (fuel - 1) s d with
  | (result, d1) =>
    if d1.errorCode ≠ .noError then (result, d1)
    else
      let d2 : ParseData := { d1 with pos := skipWhitespace s d1.pos }
      if curChar s d2.pos = some '^' then
        match parseExponent (fuel - 1) s { d2 with pos := d2.pos + 1 } with
        | (result2, d3) =>
          if d3.errorCode ≠ .noError then (result, d3)
          else expApply result result2 d3
      else (result, d2)
termination_by fuel
decreasing_by all_goals omega

/-- C `parseUnaryMinus` (lines 188-203): consume at most one leading
`-`, call the parenthesis tier, and (exactly as the C does) negate the
result whenever the `-` was present — with no error check. -/
def parseUnaryMinus (fuel : Nat) (s : List Char) (d : ParseData) : ValueType × ParseData :=
  if _h : fuel = 0 then (0, d) else
  let d1 : ParseData := { d with pos := skipWhitespace s d.pos }
  let isMinus : Bool := curChar s d1.pos = some '-'
  match parseParentheses (fuel - 1) s (if isMinus then { d1 with pos := d1.pos + 1 } else d1) with
  | (result, d2) => ((if isMinus then -result else result), d2)
termination_by fuel
decreasing_by all_goals omega

/-- C `parseParentheses` (lines 208-238): without `(`, fall through to
`parseValue`; with `(`, parse a full sub-expression at the lowest tier
and then — with no error check, exactly as the C does — require `)`
(setting `ParseError_NoClosingParenthesis` otherwise). -/
def parseParentheses (fuel : Nat) (s : List Char) (d : ParseData) : ValueType × ParseData :=
  if _h : fuel = 0 then (0, d) else
  let d1 : ParseData := { d with pos := skipWhitespace s d.pos }
  if curChar s d1.pos = some '(' then
    match parseAddSubtract (fuel - 1) s { d1 with pos := d1.pos + 1 } with
    | (result, d2) =>
      let d3 : ParseData := { d2 with pos := skipWhitespace s d2.pos }
      if curChar s d3.pos = some ')' then (result, { d3 with pos := d3.pos + 1 })
      else (0, setError d3 .noClosingParenthesis)
  else parseValue s d1
termination_by fuel
decreasing_by all_goals omega

end

/-- C `parseInputString` (lines 263-276): run the lowest tier, return 0
on error; otherwise skip trailing whitespace and set `ParseError_Syntax`
if any character remains. -/
def parseInputString (fuel : Nat) (s : List Char) (d : ParseData) : ValueType × ParseData :=
  match parseAddSubtract fuel s d with
  | (result, d1) =>
    if d1.errorCode ≠ .noError then (0, d1)
    else
      let d2 : ParseData := { d1 with pos := skipWhitespace s d1.pos }
      match curChar s d2.pos with
      | some _ => (result, setError d2 .synErr)
      | none => (result, d2)

/-- The `ParseData` each `main` iteration starts from (line 300). -/
def initState : ParseData := ⟨0, .noError, none⟩

/-- One whole run of the pipeline on an input string (as its character
list), with ample fuel (fuel is consumed once per tier entry and per
loop iteration, all of which consume input or belong to the fixed-depth
initial descent). -/
def parseString (s : List Char) : ValueType × ParseData :=
  parseInputString (7 * s.length + 12) s initState

/-- The caret column of `printErrorMsg` (lines 289-292): the loop prints
one space per character strictly before `data->currentPosition`, so the
`^` lands at column `pos`. -/
def caretColumn (d : ParseData) : Nat := d.pos

/-- The error-tracking condition a state reached from a clean start
satisfies: while no error code is stored the ghost is empty, and once
one is stored the ghost pins down the first error kind `e` and the
cursor offset `p` at that moment, with `p` never exceeding the current
cursor and the current error kind equal to `e` unless it was overwritten
by `ParseError_NoClosingParenthesis` in `parseParentheses`. -/
def ErrTrack (d : ParseData) : Prop :=
  (d.errorCode = .noError → d.firstError = none) ∧
  (d.errorCode ≠ .noError →
    ∃ e p, d.firstError = some (e, p) ∧ p ≤ d.pos ∧
      (d.errorCode = e ∨ d.errorCode = .noClosingParenthesis))

/-! ### Basic state lemmas -/

@[simp] theorem setError_pos (d : ParseData) (e : ParseErrorCode) :
    (setError d e).pos = d.pos := rfl

@[simp] theorem setError_errorCode (d : ParseData) (e : ParseErrorCode) :
    (setError d e).errorCode = e := rfl

theorem setError_firstError_none (d : ParseData) (e : ParseErrorCode)
    (h : d.firstError = none) : (setError d e).firstError = some (e, d.pos) := by
  simp [setError, h]

theorem setError_firstError_some (d : ParseData) (e : ParseErrorCode)
    (x : ParseErrorCode × Nat) (h : d.firstError = some x) :
    (setError d e).firstError = some x := by
  simp [setError, h]

theorem le_skipWhitespace (s : List Char) (pos : Nat) : pos ≤ skipWhitespace s pos :=
  Nat.le_add_right _ _

theorem strtollSign_le (s : List Char) (p1 : Nat) : p1 ≤ (strtollSign s p1).2 := by
  unfold strtollSign
  split <;> simp

theorem strtoll_le (s : List Char) (pos : Nat) : pos ≤ (strtoll s pos).2 := by
  have h1 : pos ≤ (strtollSign s (skipWhitespace s pos)).2 :=
    le_trans (le_skipWhitespace s pos) (strtollSign_le s _)
  cases h : curChar s (strtollSign s (skipWhitespace s pos)).2 with
  | none => simp [strtoll, h]
  | some c =>
      by_cases hd : c.isDigit
      · simp only [strtoll, h, hd, if_true]
        simpa using le_trans h1 (Nat.le_add_right _ _)
      · simp [strtoll, h, hd]

theorem parseValue_pos_le (s : List Char) (d : ParseData) :
    d.pos ≤ (parseValue s d).2.pos := by
  have h1 : d.pos ≤ skipWhitespace s d.pos := le_skipWhitespace s d.pos
  have h2 : skipWhitespace s d.pos ≤ (strtoll s (skipWhitespace s d.pos)).2 :=
    strtoll_le s _
  simpa [parseValue] using le_trans h1 h2

theorem expApply_pos (b e : ValueType) (d : ParseData) :
    (expApply b e d).2.pos = d.pos := by
  unfold expApply
  split
  · rfl
  · split
    · rfl
    · split <;> rfl

/-- One-step unfolding of `parseAddSubtract` at nonzero fuel. -/
theorem parseAddSubtract_succ (fuel : Nat) (s : List Char) (d : ParseData) :
    parseAddSubtract (fuel + 1) s d =
      match parseMulDiv fuel s d with
      | (result, d1) =>
        if d1.errorCode ≠ .noError then (result, d1)
        else addSubLoop fuel s result d1 := by
  rw [parseAddSubtract, dif_neg (Nat.succ_ne_zero fuel)]
  simp

/-- One-step unfolding of `addSubLoop` at nonzero fuel. -/
theorem addSubLoop_succ (fuel : Nat) (s : List Char) (result : ValueType) (d : ParseData) :
    addSubLoop (fuel + 1) s result d =
      (let d1 : ParseData := { d with pos := skipWhitespace s d.pos }
       match curChar s d1.pos with
       | some c =>
         if c = '+' ∨ c = '-' then
           match parseMulDiv fuel s { d1 with pos := d1.pos + 1 } with
           | (result2, d2) =>
             if d2.errorCode ≠ .noError then (result, d2)
             else addSubLoop fuel s (if c = '+' then result + result2 else result - result2) d2
         else (result, d1)
       | none => (result, d1)) := by
  rw [addSubLoop, dif_neg (Nat.succ_ne_zero fuel)]
  simp

/-- One-step unfolding of `parseMulDiv` at nonzero fuel. -/
theorem parseMulDiv_succ (fuel : Nat) (s : List Char) (d : ParseData) :
    parseMulDiv (fuel + 1) s d =
      match parseExponent fuel s d with
      | (result, d1) =>
        if d1.errorCode ≠ .noError then (0, d1)
        else mulDivLoop fuel s result d1 := by
  rw [parseMulDiv, dif_neg (Nat.succ_ne_zero fuel)]
  simp

/-- One-step unfolding of `mulDivLoop` at nonzero fuel. -/
theorem mulDivLoop_succ (fuel : Nat) (s : List Char) (result : ValueType) (d : ParseData) :
    mulDivLoop (fuel + 1) s result d =
      (let d1 : ParseData := { d with pos := skipWhitespace s d.pos }
       match curChar s d1.pos with
       | some c =>
         if c = '*' ∨ c = '/' then
           match parseExponent fuel s { d1 with pos := d1.pos + 1 } with
           | (result2, d2) =>
             if d2.errorCode ≠ .noError then (0, d2)
             else
               match mulDivApply c result result2 with
               | none => (0, setError d2 .div0)
               | some result3 => mulDivLoop fuel s result3 d2
         else (result, d1)
       | none => (result, d1)) := by
  rw [mulDivLoop, dif_neg (Nat.succ_ne_zero fuel)]
  simp

/-- One-step unfolding of `parseExponent` at nonzero fuel. -/
theorem parseExponent_succ (fuel : Nat) (s : List Char) (d : ParseData) :
    parseExponent (fuel + 1) s d =
      match parseUnaryMinus fuel s d with
      | (result, d1) =>
        if d1.errorCode ≠ .noError then (result, d1)
        else
          let d2 : ParseData := { d1 with pos := skipWhitespace s d1.pos }
          if curChar s d2.pos = some '^' then
            match parseExponent fuel s { d2 with pos := d2.pos + 1 } with
            | (result2, d3) =>
              if d3.errorCode ≠ .noError then (result, d3)
              else expApply result result2 d3
          else (result, d2) := by
  rw [parseExponent, dif_neg (Nat.succ_ne_zero fuel)]
  simp

/-- One-step unfolding of `parseUnaryMinus` at nonzero fuel. -/
theorem parseUnaryMinus_succ (fuel : Nat) (s : List Char) (d : ParseData) :
    parseUnaryMinus (fuel + 1) s d =
      (let d1 : ParseData := { d with pos := skipWhitespace s d.pos }
       let isMinus : Bool := curChar s d1.pos = some '-'
       match parseParentheses fuel s (if isMinus then { d1 with pos := d1.pos + 1 } else d1) with
       | (result, d2) => ((if isMinus then -result else result), d2)) := by
  rw [parseUnaryMinus, dif_neg (Nat.succ_ne_zero fuel)]
  simp

/-- One-step unfolding of `parseParentheses` at nonzero fuel. -/
theorem parseParentheses_succ (fuel : Nat) (s : List Char) (d : ParseData) :
    parseParentheses (fuel + 1) s d =
      (let d1 : ParseData := { d with pos := skipWhitespace s d.pos }
       if curChar s d1.pos = some '(' then
         match parseAddSubtract fuel s { d1 with pos := d1.pos + 1 } with
         | (result, d2) =>
           let d3 : ParseData := { d2 with pos := skipWhitespace s d2.pos }
           if curChar s d3.pos = some ')' then (result, { d3 with pos := d3.pos + 1 })
           else (0, setError d3 .noClosingParenthesis)
       else parseValue s d1) := by
  rw [parseParentheses, dif_neg (Nat.succ_ne_zero fuel)]
  simp

/-- Position monotonicity of every tier, simultaneously, by induction on
the fuel: the cursor never moves backwards (spec invariant 1). -/
theorem posMono_all (fuel : Nat) :
    (∀ s d, d.pos ≤ (parseAddSubtract fuel s d).2.pos) ∧
    (∀ s r d, d.pos ≤ (addSubLoop fuel s r d).2.pos) ∧
    (∀ s d, d.pos ≤ (parseMulDiv fuel s d).2.pos) ∧
    (∀ s r d, d.pos ≤ (mulDivLoop fuel s r d).2.pos) ∧
    (∀ s d, d.pos ≤ (parseExponent fuel s d).2.pos) ∧
    (∀ s d, d.pos ≤ (parseUnaryMinus fuel s d).2.pos) ∧
    (∀ s d, d.pos ≤ (parseParentheses fuel s d).2.pos) := by
  induction fuel with
  | zero =>
      refine ⟨?_, ?_, ?_, ?_, ?_, ?_, ?_⟩ <;> intros <;>
        simp [parseAddSubtract, addSubLoop, parseMulDiv, mulDivLoop,
              parseExponent, parseUnaryMinus, parseParentheses]
  | succ fuel ih =>
      obtain ⟨ihAS, ihASL, ihMD, ihMDL, ihE, ihU, ihP⟩ := ih
      refine ⟨?_, ?_, ?_, ?_, ?_, ?_, ?_⟩
      · intro s d
        simp only [parseAddSubtract_succ]
        rcases h : parseMulDiv fuel s d with ⟨r, d1⟩
        have h1 := ihMD s d; rw [h] at h1
        by_cases he : d1.errorCode = .noError
        · simpa [he] using le_trans h1 (ihASL s r d1)
        · simpa [he] using h1
      · intro s r d
        simp only [addSubLoop_succ]
        have hws : d.pos ≤ skipWhitespace s d.pos := le_skipWhitespace s d.pos
        rcases hc : curChar s (skipWhitespace s d.pos) with _ | c
        · simpa [hc] using hws
        · by_cases hop : c = '+' ∨ c = '-'
          · rcases h : parseMulDiv fuel s ⟨skipWhitespace s d.pos + 1, d.errorCode, d.firstError⟩
              with ⟨r2, d2⟩
            have h1 := ihMD s ⟨skipWhitespace s d.pos + 1, d.errorCode, d.firstError⟩
            rw [h] at h1
            have h2 : d.pos ≤ d2.pos :=
              le_trans hws (le_trans (Nat.le_succ _) h1)
            by_cases he : d2.errorCode = .noError
            · simpa [hc, hop, h, he] using le_trans h2 (ihASL s _ d2)
            · simpa [hc, hop, h, he] using h2
          · simpa [hc, hop] using hws
      · intro s d
        simp only [parseMulDiv_succ]
        rcases h : parseExponent fuel s d with ⟨r, d1⟩
        have h1 := ihE s d; rw [h] at h1
        by_cases he : d1.errorCode = .noError
        · simpa [he] using le_trans h1 (ihMDL s r d1)
        · simpa [he] using h1
      · intro s r d
        simp only [mulDivLoop_succ]
        have hws : d.pos ≤ skipWhitespace s d.pos := le_skipWhitespace s d.pos
        rcases hc : curChar s (skipWhitespace s d.pos) with _ | c
        · simpa [hc] using hws
        · by_cases hop : c = '*' ∨ c = '/'
          · rcases h : parseExponent fuel s ⟨skipWhitespace s d.pos + 1, d.errorCode, d.firstError⟩
              with ⟨r2, d2⟩
            have h1 := ihE s ⟨skipWhitespace s d.pos + 1, d.errorCode, d.firstError⟩
            rw [h] at h1
            have h2 : d.pos ≤ d2.pos :=
              le_trans hws (le_trans (Nat.le_succ _) h1)
            by_cases he : d2.errorCode = .noError
            · rcases ha : mulDivApply c r r2 with _ | r3
              · simpa [hc, hop, h, he, ha] using h2
              · simpa [hc, hop, h, he, ha] using le_trans h2 (ihMDL s r3 d2)
            · simpa [hc, hop, h, he] using h2
          · simpa [hc, hop] using hws
      · intro s d
        simp only [parseExponent_succ]
        rcases h : parseUnaryMinus fuel s d with ⟨r, d1⟩
        have h1 := ihU s d; rw [h] at h1
        by_cases he : d1.errorCode = .noError
        · have hws : d1.pos ≤ skipWhitespace s d1.pos := le_skipWhitespace s d1.pos
          by_cases hx : curChar s (skipWhitespace s d1.pos) = some '^'
          · rcases h2 : parseExponent fuel s ⟨skipWhitespace s d1.pos + 1, d1.errorCode, d1.firstError⟩
              with ⟨r2, d3⟩
            have h3 := ihE s ⟨skipWhitespace s d1.pos + 1, d1.errorCode, d1.firstError⟩
            rw [h2] at h3
            have h4 : d.pos ≤ d3.pos :=
              le_trans h1 (le_trans hws (le_trans (Nat.le_succ _) h3))
            by_cases he3 : d3.errorCode = .noError
            · simpa [h, he, hx, h2, he3, expApply_pos] using h4
            · simpa [h, he, hx, h2, he3] using h4
          · simpa [h, he, hx] using le_trans h1 hws
        · simpa [h, he] using h1
      · intro s d
        simp only [parseUnaryMinus_succ]
        have hws : d.pos ≤ skipWhitespace s d.pos := le_skipWhitespace s d.pos
        by_cases hm : curChar s (skipWhitespace s d.pos) = some '-'
        · rcases h : parseParentheses fuel s ⟨skipWhitespace s d.pos + 1, d.errorCode, d.firstError⟩
            with ⟨r, d2⟩
          have h1 := ihP s ⟨skipWhitespace s d.pos + 1, d.errorCode, d.firstError⟩
          rw [h] at h1
          simpa [hm, h] using le_trans hws (le_trans (Nat.le_succ _) h1)
        · rcases h : parseParentheses fuel s ⟨skipWhitespace s d.pos, d.errorCode, d.firstError⟩
            with ⟨r, d2⟩
          have h1 := ihP s ⟨skipWhitespace s d.pos, d.errorCode, d.firstError⟩
          rw [h] at h1
          simpa [hm, h] using le_trans hws h1
      · intro s d
        simp only [parseParentheses_succ]
        have hws : d.pos ≤ skipWhitespace s d.pos := le_skipWhitespace s d.pos
        by_cases hp : curChar s (skipWhitespace s d.pos) = some '('
        · rcases h : parseAddSubtract fuel s ⟨skipWhitespace s d.pos + 1, d.errorCode, d.firstError⟩
            with ⟨r, d2⟩
          have h1 := ihAS s ⟨skipWhitespace s d.pos + 1, d.errorCode, d.firstError⟩
          rw [h] at h1
          have h2 : d.pos ≤ d2.pos := le_trans hws (le_trans (Nat.le_succ _) h1)
          have hws2 : d2.pos ≤ skipWhitespace s d2.pos := le_skipWhitespace s d2.pos
          by_cases hcl : curChar s (skipWhitespace s d2.pos) = some ')'
          · simpa [hp, h, hcl] using le_trans h2 (le_trans hws2 (Nat.le_succ _))
          · simpa [hp, h, hcl] using le_trans h2 hws2
        · have h1 := parseValue_pos_le s ⟨skipWhitespace s d.pos, d.errorCode, d.firstError⟩
          simpa [hp] using le_trans hws h1

theorem errTrack_clean {d : ParseData} (h1 : d.errorCode = .noError)
    (h2 : d.firstError = none) : ErrTrack d :=
  ⟨fun _ => h2, fun hne => absurd h1 hne⟩

theorem errTrack_pos_le {d : ParseData} (H : ErrTrack d) {p : Nat} (hle : d.pos ≤ p) :
    ErrTrack { d with pos := p } := by
  refine ⟨fun h => H.1 h, fun hne => ?_⟩
  obtain ⟨e, p0, hfe, hp0, hor⟩ := H.2 hne
  exact ⟨e, p0, hfe, le_trans hp0 hle, hor⟩

theorem errTrack_setError_clean {d : ParseData} (_h1 : d.errorCode = .noError)
    (h2 : d.firstError = none) {e : ParseErrorCode} (he : e ≠ .noError) :
    ErrTrack (setError d e) := by
  refine ⟨fun h => absurd h he, fun _ => ⟨e, d.pos, ?_, le_refl _, Or.inl rfl⟩⟩
  simpa using setError_firstError_none d e h2

theorem errTrack_setError_noClose {d : ParseData} (H : ErrTrack d) {p : Nat}
    (hle : d.pos ≤ p) :
    ErrTrack (setError { d with pos := p } .noClosingParenthesis) := by
  by_cases h : d.errorCode = .noError
  · have h2 : d.firstError = none := H.1 h
    refine ⟨fun hc => by simp at hc, fun _ => ⟨.noClosingParenthesis, p, ?_, le_refl _, Or.inr rfl⟩⟩
    have : ({ d with pos := p } : ParseData).firstError = none := h2
    simpa using setError_firstError_none { d with pos := p } .noClosingParenthesis this
  · obtain ⟨e, p0, hfe, hp0, _⟩ := H.2 h
    refine ⟨fun hc => by simp at hc, fun _ => ⟨e, p0, ?_, le_trans hp0 hle, Or.inr rfl⟩⟩
    have : ({ d with pos := p } : ParseData).firstError = some (e, p0) := hfe
    simpa using setError_firstError_some { d with pos := p } .noClosingParenthesis _ this

theorem errTrack_parseValue (s : List Char) {d : ParseData}
    (h1 : d.errorCode = .noError) (h2 : d.firstError = none) :
    ErrTrack (parseValue s d).2 := by
  by_cases h : (strtoll s (skipWhitespace s d.pos)).2 = skipWhitespace s d.pos
  · refine ⟨fun hc => ?_, fun _ => ⟨.synErr, skipWhitespace s d.pos, ?_, ?_, Or.inl ?_⟩⟩
    · simp [parseValue, h, setError] at hc
    · simp [parseValue, h, setError, h2]
    · simp [parseValue, h]
    · simp [parseValue, h, setError]
  · have hcl : ErrTrack ({ d with pos := (strtoll s (skipWhitespace s d.pos)).2 } : ParseData) :=
      errTrack_clean (by simpa using h1) (by simpa using h2)
    refine ⟨fun hc => ?_, fun hne => ?_⟩
    · simpa [parseValue, h] using hcl.1 (by simpa [parseValue, h] using hc)
    · exact absurd (by simpa [parseValue, h] using h1) (by simpa [parseValue, h] using hne)

theorem errTrack_expApply (b e : ValueType) {d : ParseData}
    (h1 : d.errorCode = .noError) (h2 : d.firstError = none) :
    ErrTrack (expApply b e d).2 := by
  unfold expApply
  split
  · exact errTrack_clean h1 h2
  · split
    · exact errTrack_setError_clean h1 h2 (by simp)
    · split
      · exact errTrack_clean h1 h2
      · exact errTrack_clean h1 h2

/-- Error tracking for every tier, simultaneously, by induction on the
fuel: started from a clean state, each tier leaves a state satisfying
`ErrTrack`. -/
theorem errTrack_all (fuel : Nat) :
    (∀ s d, d.errorCode = .noError → d.firstError = none →
      ErrTrack (parseAddSubtract fuel s d).2) ∧
    (∀ s r d, d.errorCode = .noError → d.firstError = none →
      ErrTrack (addSubLoop fuel s r d).2) ∧
    (∀ s d, d.errorCode = .noError → d.firstError = none →
      ErrTrack (parseMulDiv fuel s d).2) ∧
    (∀ s r d, d.errorCode = .noError → d.firstError = none →
      ErrTrack (mulDivLoop fuel s r d).2) ∧
    (∀ s d, d.errorCode = .noError → d.firstError = none →
      ErrTrack (parseExponent fuel s d).2) ∧
    (∀ s d, d.errorCode = .noError → d.firstError = none →
      ErrTrack (parseUnaryMinus fuel s d).2) ∧
    (∀ s d, d.errorCode = .noError → d.firstError = none →
      ErrTrack (parseParentheses fuel s d).2) := by
  induction fuel with
  | zero =>
      refine ⟨fun s d h1 h2 => ?_, fun s r d h1 h2 => ?_, fun s d h1 h2 => ?_,
              fun s r d h1 h2 => ?_, fun s d h1 h2 => ?_, fun s d h1 h2 => ?_,
              fun s d h1 h2 => ?_⟩
      · simpa [parseAddSubtract] using errTrack_clean h1 h2
      · simpa [addSubLoop] using errTrack_clean h1 h2
      · simpa [parseMulDiv] using errTrack_clean h1 h2
      · simpa [mulDivLoop] using errTrack_clean h1 h2
      · simpa [parseExponent] using errTrack_clean h1 h2
      · simpa [parseUnaryMinus] using errTrack_clean h1 h2
      · simpa [parseParentheses] using errTrack_clean h1 h2
  | succ fuel ih =>
      obtain ⟨ihAS, ihASL, ihMD, ihMDL, ihE, ihU, ihP⟩ := ih
      refine ⟨?_, ?_, ?_, ?_, ?_, ?_, ?_⟩
      · intro s d h1 h2
        simp only [parseAddSubtract_succ]
        rcases h : parseMulDiv fuel s d with ⟨r, d1⟩
        have H1 := ihMD s d h1 h2; rw [h] at H1
        by_cases he : d1.errorCode = .noError
        · simpa [he] using ihASL s r d1 he (H1.1 he)
        · simpa [he] using H1
      · intro s r d h1 h2
        simp only [addSubLoop_succ]
        rcases hc : curChar s (skipWhitespace s d.pos) with _ | c
        · simpa [hc] using errTrack_clean (d := ⟨skipWhitespace s d.pos, d.errorCode, d.firstError⟩) h1 h2
        · by_cases hop : c = '+' ∨ c = '-'
          · rcases h : parseMulDiv fuel s ⟨skipWhitespace s d.pos + 1, d.errorCode, d.firstError⟩
              with ⟨r2, d2⟩
            have H1 := ihMD s ⟨skipWhitespace s d.pos + 1, d.errorCode, d.firstError⟩ h1 h2
            rw [h] at H1
            by_cases he : d2.errorCode = .noError
            · simpa [hc, hop, h, he] using ihASL s _ d2 he (H1.1 he)
            · simpa [hc, hop, h, he] using H1
          · simpa [hc, hop] using errTrack_clean (d := ⟨skipWhitespace s d.pos, d.errorCode, d.firstError⟩) h1 h2
      · intro s d h1 h2
        simp only [parseMulDiv_succ]
        rcases h : parseExponent fuel s d with ⟨r, d1⟩
        have H1 := ihE s d h1 h2; rw [h] at H1
        by_cases he : d1.errorCode = .noError
        · simpa [he] using ihMDL s r d1 he (H1.1 he)
        · simpa [he] using H1
      · intro s r d h1 h2
        simp only [mulDivLoop_succ]
        rcases hc : curChar s (skipWhitespace s d.pos) with _ | c
        · simpa [hc] using errTrack_clean (d := ⟨skipWhitespace s d.pos, d.errorCode, d.firstError⟩) h1 h2
        · by_cases hop : c = '*' ∨ c = '/'
          · rcases h : parseExponent fuel s ⟨skipWhitespace s d.pos + 1, d.errorCode, d.firstError⟩
              with ⟨r2, d2⟩
            have H1 := ihE s ⟨skipWhitespace s d.pos + 1, d.errorCode, d.firstError⟩ h1 h2
            rw [h] at H1
            by_cases he : d2.errorCode = .noError
            · rcases ha : mulDivApply c r r2 with _ | r3
              · simpa [hc, hop, h, he, ha] using
                  errTrack_setError_clean he (H1.1 he) (e := .div0) (by simp)
              · simpa [hc, hop, h, he, ha] using ihMDL s r3 d2 he (H1.1 he)
            · simpa [hc, hop, h, he] using H1
          · simpa [hc, hop] using errTrack_clean (d := ⟨skipWhitespace s d.pos, d.errorCode, d.firstError⟩) h1 h2
      · intro s d h1 h2
        simp only [parseExponent_succ]
        rcases h : parseUnaryMinus fuel s d with ⟨r, d1⟩
        have H1 := ihU s d h1 h2; rw [h] at H1
        by_cases he : d1.errorCode = .noError
        · have Hskip : ErrTrack ({ d1 with pos := skipWhitespace s d1.pos } : ParseData) :=
            errTrack_clean (by simpa using he) (by simpa using H1.1 he)
          by_cases hx : curChar s (skipWhitespace s d1.pos) = some '^'
          · rcases h2' : parseExponent fuel s ⟨skipWhitespace s d1.pos + 1, d1.errorCode, d1.firstError⟩
              with ⟨r2, d3⟩
            have H3 := ihE s ⟨skipWhitespace s d1.pos + 1, d1.errorCode, d1.firstError⟩
              (by simpa using he) (by simpa using H1.1 he)
            rw [h2'] at H3
            by_cases he3 : d3.errorCode = .noError
            · simpa [h, he, hx, h2', he3] using errTrack_expApply r r2 he3 (H3.1 he3)
            · simpa [h, he, hx, h2', he3] using H3
          · simpa [h, he, hx] using Hskip
        · simpa [h, he] using H1
      · intro s d h1 h2
        simp only [parseUnaryMinus_succ]
        by_cases hm : curChar s (skipWhitespace s d.pos) = some '-'
        · rcases h : parseParentheses fuel s ⟨skipWhitespace s d.pos + 1, d.errorCode, d.firstError⟩
            with ⟨r, d2⟩
          have H1 := ihP s ⟨skipWhitespace s d.pos + 1, d.errorCode, d.firstError⟩ h1 h2
          rw [h] at H1
          simpa [hm, h] using H1
        · rcases h : parseParentheses fuel s ⟨skipWhitespace s d.pos, d.errorCode, d.firstError⟩
            with ⟨r, d2⟩
          have H1 := ihP s ⟨skipWhitespace s d.pos, d.errorCode, d.firstError⟩ h1 h2
          rw [h] at H1
          simpa [hm, h] using H1
      · intro s d h1 h2
        simp only [parseParentheses_succ]
        by_cases hp : curChar s (skipWhitespace s d.pos) = some '('
        · rcases h : parseAddSubtract fuel s ⟨skipWhitespace s d.pos + 1, d.errorCode, d.firstError⟩
            with ⟨r, d2⟩
          have H1 := ihAS s ⟨skipWhitespace s d.pos + 1, d.errorCode, d.firstError⟩ h1 h2
          rw [h] at H1
          have hws2 : d2.pos ≤ skipWhitespace s d2.pos := le_skipWhitespace s d2.pos
          by_cases hcl : curChar s (skipWhitespace s d2.pos) = some ')'
          · simpa [hp, h, hcl] using
              errTrack_pos_le H1 (le_trans hws2 (Nat.le_succ _))
          · simpa [hp, h, hcl] using errTrack_setError_noClose H1 hws2
        · simpa [hp] using errTrack_parseValue s (d := ⟨skipWhitespace s d.pos, d.errorCode, d.firstError⟩) h1 h2

/-! ### Claim C1 -/

/-- Claim C1 as stated is false: once an error is recorded, a subsequent
operation CAN change the error kind and CAN advance the cursor, because
`parseParentheses` performs its closing-parenthesis check without first
checking the shared error state.  On `"(+"` the inner sub-parse records
`Syntax` at offset 1, which `parseParentheses` then overwrites with
`NoClosingParenthesis`; on `"(5/0)"` the error is recorded at offset 4
but the `)` is still consumed, so the caret is rendered at offset 5. -/
theorem parseParentheses_breaks_write_once :
    parseString ['(', '+'] = (0, ⟨1, .noClosingParenthesis, some (.synErr, 1)⟩) ∧
    parseString ['(', '5', '/', '0', ')'] = (0, ⟨5, .div0, some (.div0, 4)⟩) ∧
    caretColumn (⟨5, .div0, some (.div0, 4)⟩ : ParseData) = 5 ∧
    ParseErrorCode.synErr ≠ .noClosingParenthesis ∧ (4 : Nat) ≠ 5 := by
  refine ⟨?_, ?_, by decide, by decide, by decide⟩ <;>
    simp [parseString, parseInputString, parseAddSubtract, addSubLoop, parseMulDiv,
          mulDivLoop, parseExponent, parseUnaryMinus, parseParentheses, parseValue,
          strtoll, strtollSign, digitsVal, curChar, skipWhitespace, skipWsCount, isCSpace,
          setError, expApply, expApply.mulIter, mulDivApply, initState]

/-- Claim C1 (amended): once an error is recorded, no operation changes
the error kind or advances the cursor, except that `parseParentheses`
(which does not check the shared error state before its
closing-parenthesis check) may overwrite the recorded kind with
`NoClosingParenthesis` and may advance the cursor past trailing
whitespace and a closing `)`.  Consequently, on failure the caret of the
diagnostic is rendered at the final stored position, which is at least
(but not always equal to) the offset at the moment of failure, and the
rendered error kind is either the first-recorded kind or
`NoClosingParenthesis`. -/
theorem error_recording_amended (fuel : Nat) (s : List Char)
    (h : (parseInputString fuel s initState).2.errorCode ≠ .noError) :
    ∃ e p, (parseInputString fuel s initState).2.firstError = some (e, p) ∧
      p ≤ caretColumn (parseInputString fuel s initState).2 ∧
      ((parseInputString fuel s initState).2.errorCode = e ∨
       (parseInputString fuel s initState).2.errorCode = .noClosingParenthesis) := by
  rcases hAS : parseAddSubtract fuel s initState with ⟨r, d1⟩
  have H0 := (errTrack_all fuel).1 s initState rfl rfl
  rw [hAS] at H0
  have H1 : ErrTrack d1 := H0
  by_cases he : d1.errorCode = .noError
  · rcases hc : curChar s (skipWhitespace s d1.pos) with _ | c
    · exact absurd (by simp [parseInputString, hAS, he, hc]) h
    · refine ⟨.synErr, skipWhitespace s d1.pos, ?_, ?_, Or.inl ?_⟩
      · simp [parseInputString, hAS, he, hc, setError, H1.1 he]
      · simp [parseInputString, hAS, he, hc, caretColumn]
      · simp [parseInputString, hAS, he, hc]
  · obtain ⟨e, p, hfe, hp, hor⟩ := H1.2 he
    refine ⟨e, p, ?_, ?_, ?_⟩
    · simpa [parseInputString, hAS, he] using hfe
    · simpa [parseInputString, hAS, he, caretColumn] using hp
    · simpa [parseInputString, hAS, he] using hor

/-- Witness for `error_recording_amended` at the failing input `"+"`. -/
theorem error_recording_amended_witness :
    (parseInputString 19 ['+'] initState).2.errorCode ≠ .noError ∧
    ∃ e p, (parseInputString 19 ['+'] initState).2.firstError = some (e, p) ∧
      p ≤ caretColumn (parseInputString 19 ['+'] initState).2 ∧
      ((parseInputString 19 ['+'] initState).2.errorCode = e ∨
       (parseInputString 19 ['+'] initState).2.errorCode = .noClosingParenthesis) :=
  have hev : parseInputString 19 ['+'] initState = (0, ⟨0, .synErr, some (.synErr, 0)⟩) := by
    simp [parseInputString, parseAddSubtract, addSubLoop, parseMulDiv,
          mulDivLoop, parseExponent, parseUnaryMinus, parseParentheses, parseValue,
          strtoll, strtollSign, digitsVal, curChar, skipWhitespace, skipWsCount, isCSpace,
          setError, expApply, expApply.mulIter, mulDivApply, initState]
  ⟨by rw [hev]; decide, error_recording_amended 19 ['+'] (by rw [hev]; decide)⟩

/-! ### Claim C2 -/

/-- Claim C2 as stated is false: the unary-minus parser negates the
parenthesis parser's result even when an error occurred downstream.  On
`"-(2+5/0)"` the parenthesis parser returns the (meaningless) value 2
with the error state already set to `Div0`, and `parseUnaryMinus`
returns its negation -2. -/
theorem unaryMinus_negates_despite_error :
    parseParentheses 59 ['-', '(', '2', '+', '5', '/', '0', ')'] ⟨1, .noError, none⟩ =
      (2, ⟨8, .div0, some (.div0, 7)⟩) ∧
    parseUnaryMinus 60 ['-', '(', '2', '+', '5', '/', '0', ')'] initState =
      (-2, ⟨8, .div0, some (.div0, 7)⟩) := by
  refine ⟨?_, ?_⟩ <;>
    simp [parseInputString, parseAddSubtract, addSubLoop, parseMulDiv,
          mulDivLoop, parseExponent, parseUnaryMinus, parseParentheses, parseValue,
          strtoll, strtollSign, digitsVal, curChar, skipWhitespace, skipWsCount, isCSpace,
          setError, expApply, expApply.mulIter, mulDivApply, initState]

/-- Claim C2 (amended): whenever a sub-call returns with the shared
error state set, the three binary-operator tiers return immediately
without applying their operator — at the tier-entry sub-call, at the
in-loop right-operand sub-calls of the add/subtract and multiply/divide
loops, and at the exponent tier's same-tier recursive call (C line 173),
where a left-hand operand is already held: add/subtract and exponent
return that held value, multiply/divide returns 0, and the driver
returns 0; the unary-minus tier, however, negates the parenthesis
tier's result unconditionally whenever it consumed a `-`, even when an
error occurred downstream. -/
theorem error_abort_amended :
    (∀ fuel s d r d1, parseMulDiv fuel s d = (r, d1) → d1.errorCode ≠ .noError →
        parseAddSubtract (fuel + 1) s d = (r, d1)) ∧
    (∀ fuel s d r d1, parseExponent fuel s d = (r, d1) → d1.errorCode ≠ .noError →
        parseMulDiv (fuel + 1) s d = (0, d1)) ∧
    (∀ fuel s d r d1, parseUnaryMinus fuel s d = (r, d1) → d1.errorCode ≠ .noError →
        parseExponent (fuel + 1) s d = (r, d1)) ∧
    (∀ fuel s d r d1, parseAddSubtract fuel s d = (r, d1) → d1.errorCode ≠ .noError →
        parseInputString fuel s d = (0, d1)) ∧
    (∀ fuel s (r : ValueType) d c r2 d2, curChar s (skipWhitespace s d.pos) = some c →
        (c = '+' ∨ c = '-') →
        parseMulDiv fuel s { d with pos := skipWhitespace s d.pos + 1 } = (r2, d2) →
        d2.errorCode ≠ .noError →
        addSubLoop (fuel + 1) s r d = (r, d2)) ∧
    (∀ fuel s (r : ValueType) d c r2 d2, curChar s (skipWhitespace s d.pos) = some c →
        (c = '*' ∨ c = '/') →
        parseExponent fuel s { d with pos := skipWhitespace s d.pos + 1 } = (r2, d2) →
        d2.errorCode ≠ .noError →
        mulDivLoop (fuel + 1) s r d = (0, d2)) ∧
    (∀ fuel s d (r : ValueType) d1 r2 d3, parseUnaryMinus fuel s d = (r, d1) →
        d1.errorCode = .noError →
        curChar s (skipWhitespace s d1.pos) = some '^' →
        parseExponent fuel s { d1 with pos := skipWhitespace s d1.pos + 1 } = (r2, d3) →
        d3.errorCode ≠ .noError →
        parseExponent (fuel + 1) s d = (r, d3)) ∧
    (∀ fuel s d, curChar s (skipWhitespace s d.pos) = some '-' →
        parseUnaryMinus (fuel + 1) s d =
          (-(parseParentheses fuel s { d with pos := skipWhitespace s d.pos + 1 }).1,
           (parseParentheses fuel s { d with pos := skipWhitespace s d.pos + 1 }).2)) := by
  refine ⟨?_, ?_, ?_, ?_, ?_, ?_, ?_, ?_⟩
  · intro fuel s d r d1 h he
    simp [parseAddSubtract_succ, h, he]
  · intro fuel s d r d1 h he
    simp [parseMulDiv_succ, h, he]
  · intro fuel s d r d1 h he
    simp [parseExponent_succ, h, he]
  · intro fuel s d r d1 h he
    simp [parseInputString, h, he]
  · intro fuel s r d c r2 d2 hc hop h he
    simp [addSubLoop_succ, hc, hop, h, he]
  · intro fuel s r d c r2 d2 hc hop h he
    simp [mulDivLoop_succ, hc, hop, h, he]
  · intro fuel s d r d1 r2 d3 h he hx h2 he3
    rw [he] at h2
    simp [parseExponent_succ, h, he, hx, h2, he3]
  · intro fuel s d h
    rcases hp : parseParentheses fuel s { d with pos := skipWhitespace s d.pos + 1 }
      with ⟨r, d2⟩
    simp [parseUnaryMinus_succ, h, hp]

/-- Witness for `error_abort_amended`: the add/subtract tier passes the
errored state of its first sub-call through unchanged on `"x"`, and its
loop, holding the left operand 1 of `"1+x"`, returns that operand
untouched when the right-operand sub-call fails. -/
theorem error_abort_amended_witness :
    parseAddSubtract (9 + 1) ['x'] initState = (0, ⟨0, .synErr, some (.synErr, 0)⟩) ∧
    addSubLoop (20 + 1) ['1', '+', 'x'] 1 ⟨1, .noError, none⟩ =
      (1, ⟨2, .synErr, some (.synErr, 2)⟩) :=
  ⟨error_abort_amended.1 9 ['x'] initState 0 ⟨0, .synErr, some (.synErr, 0)⟩
    (by simp [parseMulDiv, mulDivLoop, parseExponent, parseUnaryMinus, parseParentheses,
              parseValue, strtoll, strtollSign, digitsVal, curChar, skipWhitespace,
              skipWsCount, isCSpace, setError, expApply, expApply.mulIter, mulDivApply,
              initState])
    (by decide),
   error_abort_amended.2.2.2.2.1 20 ['1', '+', 'x'] 1 ⟨1, .noError, none⟩ '+' 0
    ⟨2, .synErr, some (.synErr, 2)⟩
    (by simp [curChar, skipWhitespace, skipWsCount, isCSpace])
    (by decide)
    (by simp [parseMulDiv, mulDivLoop, parseExponent, parseUnaryMinus, parseParentheses,
              parseValue, strtoll, strtollSign, digitsVal, curChar, skipWhitespace,
              skipWsCount, isCSpace, setError, expApply, expApply.mulIter, mulDivApply])
    (by decide)⟩

/-! ### Claim C3 -/

/-- The C loop `while(--result2) result *= factor` computes
`result * factor ^ result2`. -/
theorem mulIter_eq (factor : Int) : ∀ (n : Nat) (r : Int),
    expApply.mulIter factor n r = r * factor ^ n
  | 0, r => by simp [expApply.mulIter]
  | n + 1, r => by
      rw [expApply.mulIter, mulIter_eq factor n, pow_succ]
      ring

/-- Claim C3: the exponent tier evaluates base `b` and exponent `e`
(obtained without downstream error) as: `e = 0` yields 1 (including
`b = 0`, so `"0^0"` evaluates to 1); `e < 0` with `b = 0` sets
`DivisionByZero`; `e < 0` with `b ≠ 0` yields 0 (so `"2^-1"` evaluates
to 0); `e > 0` yields the product of `e` copies of `b` (so `"5^0"`
evaluates to 1 and `"2^5^2"` contributes `2 ^ 25`). -/
theorem exponent_policy :
    (∀ (b : ValueType) (d : ParseData), expApply b 0 d = (1, d)) ∧
    (∀ (e : ValueType) (d : ParseData), e < 0 → expApply 0 e d = (0, setError d .div0)) ∧
    (∀ (b e : ValueType) (d : ParseData), e < 0 → b ≠ 0 → expApply b e d = (0, d)) ∧
    (∀ (b e : ValueType) (d : ParseData), 0 < e → expApply b e d = (b ^ e.toNat, d)) ∧
    parseString ['0', '^', '0'] = (1, ⟨3, .noError, none⟩) ∧
    parseString ['2', '^', '-', '1'] = (0, ⟨4, .noError, none⟩) ∧
    parseString ['5', '^', '0'] = (1, ⟨3, .noError, none⟩) ∧
    parseString ['2', '^', '5', '^', '2'] = (33554432, ⟨5, .noError, none⟩) ∧
    (33554432 : ValueType) = 2 ^ 25 := by
  refine ⟨?_, ?_, ?_, ?_, ?_, ?_, ?_, ?_, by norm_num⟩
  · intro b d
    simp [expApply]
  · intro e d he
    have h0 : e ≠ 0 := ne_of_lt he
    simp [expApply, h0, he]
  · intro b e d he hb
    have h0 : e ≠ 0 := ne_of_lt he
    simp [expApply, h0, he, hb]
  · intro b e d he
    have h0 : e ≠ 0 := ne_of_gt he
    have h2 : ¬ e < 0 := not_lt.mpr (le_of_lt he)
    have hpos : 0 < e.toNat := by
      have h3 : ((0 : Nat) : Int) < e := by exact_mod_cast he
      exact Int.lt_toNat.mpr h3
    have hn : e.toNat - 1 + 1 = e.toNat := by omega
    have hm : expApply.mulIter b (e.toNat - 1) b = b ^ e.toNat := by
      rw [mulIter_eq]
      conv_rhs => rw [← hn]
      rw [pow_succ]
      ring
    simp [expApply, h0, h2, hm]
  all_goals
    simp [parseString, parseInputString, parseAddSubtract, addSubLoop, parseMulDiv,
          mulDivLoop, parseExponent, parseUnaryMinus, parseParentheses, parseValue,
          strtoll, strtollSign, digitsVal, curChar, skipWhitespace, skipWsCount, isCSpace,
          setError, expApply, expApply.mulIter, mulDivApply, initState]

/-- Witness for `exponent_policy` at base 2, exponent 5. -/
theorem exponent_policy_witness :
    (0 : ValueType) < 5 ∧ expApply 2 5 initState = ((2 : Int) ^ ((5 : Int)).toNat, initState) :=
  ⟨by decide, exponent_policy.2.2.2.1 2 5 initState (by decide)⟩

/-! ### Claim C4 -/

/-- Claim C4: the add/subtract and multiply/divide tiers fold
left-to-right (each loop continues with the already accumulated result
combined with the new operand), while the exponent tier groups
right-to-left (its right operand is a same-tier recursive parse,
combined with `expApply`); hence `"1-2+3"` parses to 2 (not -4) and
`"2^3^2"` parses to 512 (not 64). -/
theorem associativity :
    (∀ fuel s (r : ValueType) d c r2 d2, curChar s (skipWhitespace s d.pos) = some c →
        (c = '+' ∨ c = '-') →
        parseMulDiv fuel s { d with pos := skipWhitespace s d.pos + 1 } = (r2, d2) →
        d2.errorCode = .noError →
        addSubLoop (fuel + 1) s r d =
          addSubLoop fuel s (if c = '+' then r + r2 else r - r2) d2) ∧
    (∀ fuel s (r : ValueType) d c r2 d2 r3, curChar s (skipWhitespace s d.pos) = some c →
        (c = '*' ∨ c = '/') →
        parseExponent fuel s { d with pos := skipWhitespace s d.pos + 1 } = (r2, d2) →
        d2.errorCode = .noError → mulDivApply c r r2 = some r3 →
        mulDivLoop (fuel + 1) s r d = mulDivLoop fuel s r3 d2) ∧
    (∀ fuel s d (r : ValueType) d1 r2 d3, parseUnaryMinus fuel s d = (r, d1) →
        d1.errorCode = .noError →
        curChar s (skipWhitespace s d1.pos) = some '^' →
        parseExponent fuel s { d1 with pos := skipWhitespace s d1.pos + 1 } = (r2, d3) →
        d3.errorCode = .noError →
        parseExponent (fuel + 1) s d = expApply r r2 d3) ∧
    parseString ['1', '-', '2', '+', '3'] = (2, ⟨5, .noError, none⟩) ∧
    parseString ['2', '^', '3', '^', '2'] = (512, ⟨5, .noError, none⟩) := by
  refine ⟨?_, ?_, ?_, ?_, ?_⟩
  · intro fuel s r d c r2 d2 hc hop h he
    simp [addSubLoop_succ, hc, hop, h, he]
  · intro fuel s r d c r2 d2 r3 hc hop h he ha
    simp [mulDivLoop_succ, hc, hop, h, he, ha]
  · intro fuel s d r d1 r2 d3 h he hx h2 he3
    rw [he] at h2
    simp [parseExponent_succ, h, he, hx, h2, he3]
  all_goals
    simp [parseString, parseInputString, parseAddSubtract, addSubLoop, parseMulDiv,
          mulDivLoop, parseExponent, parseUnaryMinus, parseParentheses, parseValue,
          strtoll, strtollSign, digitsVal, curChar, skipWhitespace, skipWsCount, isCSpace,
          setError, expApply, expApply.mulIter, mulDivApply, initState]

/-- Witness for `associativity`: after the leading `1` of `"1-2+3"`, the
loop consumes `-` and continues with the accumulated value `1 - 2`. -/
theorem associativity_witness :
    addSubLoop (30 + 1) ['1', '-', '2', '+', '3'] 1 ⟨1, .noError, none⟩ =
      addSubLoop 30 ['1', '-', '2', '+', '3'] (1 - 2) ⟨3, .noError, none⟩ := by
  have h := associativity.1 30 ['1', '-', '2', '+', '3'] 1 ⟨1, .noError, none⟩ '-' 2
    ⟨3, .noError, none⟩
    (by simp [curChar, skipWhitespace, skipWsCount, isCSpace])
    (by decide)
    (by simp [parseAddSubtract, addSubLoop, parseMulDiv, mulDivLoop, parseExponent,
              parseUnaryMinus, parseParentheses, parseValue, strtoll, strtollSign,
              digitsVal, curChar, skipWhitespace, skipWsCount, isCSpace, setError,
              expApply, expApply.mulIter, mulDivApply])
    (by decide)
  simpa using h

/-! ### Claim C5 -/

/-- Claim C5: `"1+2*3"` parses to 7, `"(1+2)*3"` parses to 9, and the
composite `"1 + 5 * (8-(3+5*(10+20))) - 2^5^2"` parses to -33555156,
all without error. -/
theorem precedence_examples :
    parseString ['1', '+', '2', '*', '3'] = (7, ⟨5, .noError, none⟩) ∧
    parseString ['(', '1', '+', '2', ')', '*', '3'] = (9, ⟨7, .noError, none⟩) ∧
    parseString ['1', ' ', '+', ' ', '5', ' ', '*', ' ', '(', '8', '-', '(', '3', '+', '5',
                 '*', '(', '1', '0', '+', '2', '0', ')', ')', ')', ' ', '-', ' ', '2', '^',
                 '5', '^', '2'] = (-33555156, ⟨33, .noError, none⟩) := by
  refine ⟨?_, ?_, ?_⟩ <;>
    simp [parseString, parseInputString, parseAddSubtract, addSubLoop, parseMulDiv,
          mulDivLoop, parseExponent, parseUnaryMinus, parseParentheses, parseValue,
          strtoll, strtollSign, digitsVal, curChar, skipWhitespace, skipWsCount, isCSpace,
          setError, expApply, expApply.mulIter, mulDivApply, initState]

/-! ### Claim C6 -/

/-- Claim C6: in the multiply/divide tier, `DivisionByZero` arises
exactly when a `/` has a zero right operand (an iff on the operator
step), and it aborts the accumulation loop; `"5/0"` fails with
`DivisionByZero`, and `"0^-1"` fails with `DivisionByZero` through the
exponent tier's zero-base negative-exponent check. -/
theorem div0_detection :
    (∀ (c : Char) (a b : ValueType), c = '*' ∨ c = '/' →
        (mulDivApply c a b = none ↔ c = '/' ∧ b = 0)) ∧
    (∀ fuel s (r : ValueType) d c r2 d2, curChar s (skipWhitespace s d.pos) = some c →
        (c = '*' ∨ c = '/') →
        parseExponent fuel s { d with pos := skipWhitespace s d.pos + 1 } = (r2, d2) →
        d2.errorCode = .noError → mulDivApply c r r2 = none →
        mulDivLoop (fuel + 1) s r d = (0, setError d2 .div0)) ∧
    (∀ d : ParseData, expApply 0 (-1) d = (0, setError d .div0)) ∧
    parseString ['5', '/', '0'] = (0, ⟨3, .div0, some (.div0, 3)⟩) ∧
    parseString ['0', '^', '-', '1'] = (0, ⟨4, .div0, some (.div0, 4)⟩) := by
  refine ⟨?_, ?_, ?_, ?_, ?_⟩
  · intro c a b h
    rcases h with h | h <;> subst h
    · simp [mulDivApply]
    · by_cases hb : b = 0 <;> simp [mulDivApply, hb]
  · intro fuel s r d c r2 d2 hc hop h he ha
    simp [mulDivLoop_succ, hc, hop, h, he, ha]
  · intro d
    norm_num [expApply]
  all_goals
    simp [parseString, parseInputString, parseAddSubtract, addSubLoop, parseMulDiv,
          mulDivLoop, parseExponent, parseUnaryMinus, parseParentheses, parseValue,
          strtoll, strtollSign, digitsVal, curChar, skipWhitespace, skipWsCount, isCSpace,
          setError, expApply, expApply.mulIter, mulDivApply, initState]

/-- Witness for `div0_detection`: `5 / 0` is the aborting case. -/
theorem div0_detection_witness : mulDivApply '/' 5 0 = none :=
  (div0_detection.1 '/' 5 0 (Or.inr rfl)).mpr ⟨rfl, rfl⟩

/-! ### Claim C7 -/

/-- The cursor dereference reads past the end of the input (C: the
terminating NUL) exactly when the offset has reached the input length. -/
theorem curChar_eq_none_iff : ∀ (s : List Char) (p : Nat),
    curChar s p = none ↔ s.length ≤ p
  | [], p => by simp [curChar]
  | c :: rest, 0 => by simp [curChar]
  | c :: rest, p + 1 => by
      have ih := curChar_eq_none_iff rest p
      simp only [curChar, List.length_cons, ih]
      omega

/-- Claim C7: after a successful top-level add/subtract parse, the
driver skips trailing whitespace and requires end-of-input: if a
character remains it sets `Syntax` with the cursor at that character's
offset (so `"3 4"` fails with `Syntax` at offset 2, that of the second
literal); if none remains, the run succeeds with the whole input
consumed up to trailing whitespace. -/
theorem driver_end_check :
    (∀ fuel s d (r : ValueType) d1, parseAddSubtract fuel s d = (r, d1) →
        d1.errorCode = .noError →
        ((∀ c, curChar s (skipWhitespace s d1.pos) = some c →
            parseInputString fuel s d =
              (r, setError { d1 with pos := skipWhitespace s d1.pos } .synErr)) ∧
         (curChar s (skipWhitespace s d1.pos) = none →
            parseInputString fuel s d = (r, { d1 with pos := skipWhitespace s d1.pos }) ∧
            s.length ≤ skipWhitespace s d1.pos))) ∧
    parseString ['3', ' ', '4'] = (3, ⟨2, .synErr, some (.synErr, 2)⟩) := by
  refine ⟨?_, ?_⟩
  · intro fuel s d r d1 h he
    constructor
    · intro c hc
      simp [parseInputString, h, he, hc]
    · intro hnone
      exact ⟨by simp [parseInputString, h, he, hnone],
             (curChar_eq_none_iff s _).mp hnone⟩
  · simp [parseString, parseInputString, parseAddSubtract, addSubLoop, parseMulDiv,
          mulDivLoop, parseExponent, parseUnaryMinus, parseParentheses, parseValue,
          strtoll, strtollSign, digitsVal, curChar, skipWhitespace, skipWsCount, isCSpace,
          setError, expApply, expApply.mulIter, mulDivApply, initState]

/-- Witness for `driver_end_check` on the trailing-garbage input
`"3 4"`. -/
theorem driver_end_check_witness :
    parseInputString 33 ['3', ' ', '4'] initState = (3, ⟨2, .synErr, some (.synErr, 2)⟩) := by
  have h := (driver_end_check.1 33 ['3', ' ', '4'] initState 3 ⟨2, .noError, none⟩
    (by simp [parseAddSubtract, addSubLoop, parseMulDiv, mulDivLoop, parseExponent,
              parseUnaryMinus, parseParentheses, parseValue, strtoll, strtollSign,
              digitsVal, curChar, skipWhitespace, skipWsCount, isCSpace, setError,
              expApply, expApply.mulIter, mulDivApply, initState])
    rfl).1 '4' (by simp [curChar, skipWhitespace, skipWsCount, isCSpace])
  simpa [curChar, skipWhitespace, skipWsCount, isCSpace, setError] using h

/-! ### Claim C8 -/

/-- Claim C8: unary minus binds tighter than `^`: `"-2^4"` parses to 16,
that is `(-2) ^ 4`, not the conventional `-(2 ^ 4) = -16`. -/
theorem unary_minus_binds_tighter :
    parseString ['-', '2', '^', '4'] = (16, ⟨4, .noError, none⟩) ∧
    (16 : ValueType) = (-2) ^ (4 : Nat) ∧
    (parseString ['-', '2', '^', '4']).1 ≠ -(2 ^ (4 : Nat)) := by
  have hev : parseString ['-', '2', '^', '4'] = (16, ⟨4, .noError, none⟩) := by
    simp [parseString, parseInputString, parseAddSubtract, addSubLoop, parseMulDiv,
          mulDivLoop, parseExponent, parseUnaryMinus, parseParentheses, parseValue,
          strtoll, strtollSign, digitsVal, curChar, skipWhitespace, skipWsCount, isCSpace,
          setError, expApply, expApply.mulIter, mulDivApply, initState]
  refine ⟨hev, by norm_num, ?_⟩
  rw [hev]
  norm_num

/-! ### Claim C9 -/

/-- Claim C9: two or three consecutive minus signs before a literal
parse successfully (`"2--5"`, `"2---5"`, and `"--5"`, the last with
value 5), but four do not: `"2----5"` fails with a `Syntax` error. -/
theorem consecutive_minus_runs :
    parseString ['2', '-', '-', '5'] = (7, ⟨4, .noError, none⟩) ∧
    parseString ['2', '-', '-', '-', '5'] = (-3, ⟨5, .noError, none⟩) ∧
    parseString ['-', '-', '5'] = (5, ⟨3, .noError, none⟩) ∧
    parseString ['2', '-', '-', '-', '-', '5'] = (0, ⟨3, .synErr, some (.synErr, 3)⟩) := by
  refine ⟨?_, ?_, ?_, ?_⟩ <;>
    simp [parseString, parseInputString, parseAddSubtract, addSubLoop, parseMulDiv,
          mulDivLoop, parseExponent, parseUnaryMinus, parseParentheses, parseValue,
          strtoll, strtollSign, digitsVal, curChar, skipWhitespace, skipWsCount, isCSpace,
          setError, expApply, expApply.mulIter, mulDivApply, initState]

/-! ### Claim C10 -/

/-- Claim C10: a literal with an explicit leading `+` parses because
`strtoll` accepts an optional sign: `"+5"` parses to 5 and `"2*+3"`
parses to 6, and the scanner itself consumes `+5` as one literal. -/
theorem unary_plus_via_literal_sign :
    parseString ['+', '5'] = (5, ⟨2, .noError, none⟩) ∧
    parseString ['2', '*', '+', '3'] = (6, ⟨4, .noError, none⟩) ∧
    strtoll ['+', '5'] 0 = (5, 2) := by
  refine ⟨?_, ?_, ?_⟩ <;>
    simp [parseString, parseInputString, parseAddSubtract, addSubLoop, parseMulDiv,
          mulDivLoop, parseExponent, parseUnaryMinus, parseParentheses, parseValue,
          strtoll, strtollSign, digitsVal, curChar, skipWhitespace, skipWsCount, isCSpace,
          setError, expApply, expApply.mulIter, mulDivApply, initState]
